import Mathlib

/-!
Shallow embedding of `src/Web/Routes/Api/ProductRouter.js`: an Express
router for the "Product" resource.  The router registers eight endpoints,
each as a pipeline `[UserAuth, field validators] → handler`.  We embed

* the JSON values a well-formed request body can carry,
* the express-validator semantics of the declared field rules
  (`check(f, msg).not().isEmpty()`, `.isNumeric()`, `.isBoolean()`, and the
  `body('images').custom(...)` rule, modelled from the library's documented
  behaviour: standard validators run on the value coerced to a string,
  a custom validator runs on the raw value and a thrown error becomes a
  validation failure carrying the thrown message),
* the route table itself, transcribed rule by rule from the source, and
* the request pipeline.  `UserAuth` and the controllers live outside the
  given sources, so their contract (auth short-circuits with an
  unauthorized response; a failing validator yields a validation error and
  the handler is never invoked) is modelled from the spec where noted.
-/

/-- A well-formed JSON value, as produced by parsing a request body. -/
inductive Json where
  | null
  | bool (b : Bool)
  | num (n : Int)
  | str (s : String)
  | arr (elems : List Json)
  | obj (fields : List (String × Json))

/-- A parsed JSON request body: an object, i.e. a list of fields. -/
abbrev Body := List (String × Json)

/-- Field lookup in a parsed body.  `JSON.parse` keeps the last binding of a
duplicated key, so the lookup returns the last match; `none` models the JS
value `undefined` for an absent field. -/
def getField : Body → String → Option Json
  | [], _ => none
  | (k, v) :: rest, f =>
    match getField rest f with
    | some w => some w
    | none => if k == f then some v else none

mutual

/-- JS `Array.prototype.toString` (= `join(",")`): elements are stringified,
`null` becomes the empty string, nested arrays are joined recursively, and a
plain object prints as `[object Object]`. -/
def jsJoinStr : Json → String
  | .null => ""
  | .bool b => cond b "true" "false"
  | .num n => toString n
  | .str s => s
  | .arr xs => jsJoinList xs
  | .obj _ => "[object Object]"

/-- JS `Array.prototype.join(",")` over the stringified elements. -/
def jsJoinList : List Json → String
  | [] => ""
  | [x] => jsJoinStr x
  | x :: xs => jsJoinStr x ++ "," ++ jsJoinList xs

end

/-- The string coercion express-validator applies before running a standard
validator on a raw field value (its `toString` utility): a non-empty array is
replaced by its first element (one level deep), an array reached past that
level or an empty array stringifies via `join(",")`, an object via its
default `toString`, `null`/`undefined` become the empty string, and
primitives go through `String(...)`. -/
def evToStrDeep : Json → Bool → String
  | .arr (x :: _), true => evToStrDeep x false
  | .arr xs, _ => jsJoinStr (.arr xs)
  | .obj _, _ => "[object Object]"
  | .null, _ => ""
  | .bool b, _ => cond b "true" "false"
  | .num n, _ => toString n
  | .str s, _ => s

/-- String coercion of an optional raw field value: an absent field
(`undefined`) coerces to the empty string. -/
def evToStr : Option Json → String
  | none => ""
  | some v => evToStrDeep v true

/-- validator.js `isNumeric` with default options: the string matches
the regular expression matching an optional sign, then either one or more
digits, or optional digits, a decimal point and one or more digits. -/
def isNumericStr (s : String) : Bool :=
  let cs := match s.data with
    | c :: rest => if c = '+' ∨ c = '-' then rest else c :: rest
    | [] => []
  let (ip, rest) := cs.span Char.isDigit
  match rest with
  | [] => !ip.isEmpty
  | '.' :: frac => !frac.isEmpty && frac.all Char.isDigit
  | _ => false

/-- validator.js `isBoolean` with default (strict) options. -/
def isBooleanStr (s : String) : Bool :=
  s == "true" || s == "false" || s == "0" || s == "1"

/-- The standard (string-level) predicates the router declares. -/
inductive StdPred where
  | notEmpty
  | isNumeric
  | isBoolean
deriving DecidableEq, Repr

/-- Evaluate a standard predicate on the coerced string value.
`notEmpty` is `not().isEmpty()`: it passes exactly on a non-empty string. -/
def evalStd : StdPred → String → Bool
  | .notEmpty, s => !(s == "")
  | .isNumeric, s => isNumericStr s
  | .isBoolean, s => isBooleanStr s

/-- The error message thrown by the images custom validator in the source. -/
def imagesMsg : String := "Each product should have at least 3 images"

/-- Outcome of running the `body('images').custom(...)` function on the raw
value: it returns `true`, throws the declared `Error`, or crashes with a
runtime `TypeError`. -/
inductive CustomOutcome where
  | returned
  | thrownError (msg : String)
  | thrownTypeError (msg : String)
deriving DecidableEq, Repr

/-- Whether the custom function threw (for any reason) instead of
returning. -/
def customThrows : CustomOutcome → Bool
  | .returned => false
  | .thrownError _ => true
  | .thrownTypeError _ => true

/-- The UTF-16 size of a character: code points above U+FFFF take two code
units (a surrogate pair). -/
def utf16SizeC (c : Char) : Nat := if c.toNat < 0x10000 then 1 else 2

/-- The JS `.length` of a string: its number of UTF-16 code units. -/
def utf16Len (s : String) : Nat := (s.data.map utf16SizeC).sum

/-- The code points JS strips before converting a string to a number:
ECMAScript WhiteSpace (TAB, VT, FF, SP, NBSP, ZWNBSP and the Zs category)
and LineTerminator (LF, CR, LS, PS). -/
def isJsWhite (c : Char) : Bool :=
  let n := c.toNat
  n == 0x09 || n == 0x0A || n == 0x0B || n == 0x0C || n == 0x0D || n == 0x20 ||
  n == 0xA0 || n == 0x1680 || (0x2000 ≤ n && n ≤ 0x200A) || n == 0x2028 ||
  n == 0x2029 || n == 0x202F || n == 0x205F || n == 0x3000 || n == 0xFEFF

/-- Strip leading and trailing JS whitespace from a character list. -/
def jsTrim (cs : List Char) : List Char :=
  ((cs.dropWhile isJsWhite).reverse.dropWhile isJsWhite).reverse

/-- Numeric value of a digit list in the given base; letters `a`-`f` and
`A`-`F` carry their hexadecimal values (digits assumed valid for the
base). -/
def digitsVal (base : Nat) (ds : List Char) : Nat :=
  ds.foldl (fun a c =>
    a * base +
      (if 97 ≤ c.toNat then c.toNat - 87
       else if 65 ≤ c.toNat then c.toNat - 55
       else c.toNat - 48)) 0

/-- A hexadecimal digit. -/
def isHexDigit (c : Char) : Bool :=
  c.isDigit || ('a' ≤ c && c ≤ 'f') || ('A' ≤ c && c ≤ 'F')

/-- An octal digit. -/
def isOctDigit (c : Char) : Bool := '0' ≤ c && c ≤ '7'

/-- A binary digit. -/
def isBinDigit (c : Char) : Bool := c == '0' || c == '1'

/-- Whether the exact decimal magnitude `D * 10^k` compares below 3 once
converted to an IEEE double: `ToNumber` rounds to nearest (ties to even),
and the nonnegative doubles below 3 are exactly the roundings of exact
values below `3 - 2^-52 = 13510798882111487 / 2^52`, the boundary between
3 and its predecessor double. -/
def decMagLtThree (D : Nat) (k : Int) : Bool :=
  if 0 ≤ k then D * 10 ^ k.toNat * 4503599627370496 < 13510798882111487
  else D * 4503599627370496 < 13510798882111487 * 10 ^ (-k).toNat

/-- Parse the optional ExponentPart of a StrDecimalLiteral: the empty rest
means exponent 0; otherwise `e`/`E`, an optional sign and at least one
digit consuming everything that remains; `none` means the literal is
invalid. -/
def parseExp : List Char → Option Int
  | [] => some 0
  | e :: rest =>
    if e == 'e' || e == 'E' then
      let (neg, ds) := match rest with
        | '-' :: ds => (true, ds)
        | '+' :: ds => (false, ds)
        | ds => (false, ds)
      if ds.isEmpty || !ds.all Char.isDigit then none
      else some (if neg then -(digitsVal 10 ds : Int) else (digitsVal 10 ds : Int))
    else none

/-- An unsigned decimal string literal: `Infinity`, or a finite magnitude
`D * 10^k` collected from its integer digits, fraction digits and
exponent. -/
inductive JsUDec where
  | infinity
  | finite (D : Nat) (k : Int)

/-- Parse a StrUnsignedDecimalLiteral: `Infinity`, digits with an optional
fraction and exponent, or a bare fraction with an exponent; `none` means
the literal is invalid (`NaN`). -/
def parseUDec (cs : List Char) : Option JsUDec :=
  if cs = ['I', 'n', 'f', 'i', 'n', 'i', 't', 'y'] then some .infinity
  else
    let (ip, r1) := cs.span Char.isDigit
    match r1 with
    | '.' :: r2 =>
      let (fp, r3) := r2.span Char.isDigit
      if ip.isEmpty && fp.isEmpty then none
      else
        match parseExp r3 with
        | none => none
        | some e => some (.finite (digitsVal 10 (ip ++ fp)) (e - fp.length))
    | _ =>
      if ip.isEmpty then none
      else
        match parseExp r1 with
        | none => none
        | some e => some (.finite (digitsVal 10 ip) e)

/-- Compare an optionally negated unsigned decimal literal with 3 under JS
semantics: an invalid literal is `NaN` and compares false; a valid negated
literal (any negative value, `-0` or `-Infinity`) is below 3; positive
`Infinity` is not; a finite nonnegative magnitude is compared through the
double rounding boundary. -/
def jsDecLt3 (neg : Bool) (cs : List Char) : Bool :=
  match parseUDec cs with
  | none => false
  | some .infinity => neg
  | some (.finite D k) => neg || decMagLtThree D k

/-- JS `ToNumber(s) < 3` for a string `s`: trim JS whitespace; an empty
remainder is 0; `0x`/`0o`/`0b` prefixes introduce unsigned non-decimal
integer literals; otherwise an optionally signed decimal literal or
`Infinity`; anything else is `NaN`, which compares false. -/
def jsStrLt3 (s : String) : Bool :=
  match jsTrim s.data with
  | [] => true
  | '0' :: b :: rest =>
    if b == 'x' || b == 'X' then
      !rest.isEmpty && rest.all isHexDigit && decide (digitsVal 16 rest ≤ 2)
    else if b == 'o' || b == 'O' then
      !rest.isEmpty && rest.all isOctDigit && decide (digitsVal 8 rest ≤ 2)
    else if b == 'b' || b == 'B' then
      !rest.isEmpty && rest.all isBinDigit && decide (digitsVal 2 rest ≤ 2)
    else jsDecLt3 false ('0' :: b :: rest)
  | '-' :: rest => jsDecLt3 true rest
  | '+' :: rest => jsDecLt3 false rest
  | cs => jsDecLt3 false cs

/-- JS relational comparison `v < 3` for a JSON value found in a `length`
property: `null` and booleans coerce to `0`/`1`, a string (or an array,
via its `join(",")` form) goes through `ToNumber` (see `jsStrLt3`), and a
plain object coerces to `[object Object]`, hence `NaN`, which compares
false. -/
def jsLengthPropLt3 : Json → Bool
  | .null => true
  | .bool _ => true
  | .num n => decide (n < 3)
  | .str s => jsStrLt3 s
  | .arr xs => jsStrLt3 (jsJoinStr (.arr xs))
  | .obj _ => false

/-- The images custom validator from the source, run on the raw value of
the `images` field: `if (value.length < 3) throw new Error(imagesMsg);
return true`.  Reading `.length` of `undefined` or `null` throws a
`TypeError`; a string exposes its length in UTF-16 code units and an array
its element count; numbers and booleans have no `length` property, so
`undefined < 3` is false and the function returns; an object exposes
whatever its `length` field holds, compared with JS coercion. -/
def imagesCustomEval : Option Json → CustomOutcome
  | none => .thrownTypeError "Cannot read properties of undefined (reading 'length')"
  | some .null => .thrownTypeError "Cannot read properties of null (reading 'length')"
  | some (.str s) => if utf16Len s < 3 then .thrownError imagesMsg else .returned
  | some (.arr xs) => if xs.length < 3 then .thrownError imagesMsg else .returned
  | some (.bool _) => .returned
  | some (.num _) => .returned
  | some (.obj fs) =>
    match getField fs "length" with
    | none => .returned
    | some v => if jsLengthPropLt3 v then .thrownError imagesMsg else .returned

/-- A declared field rule: either a `check(field, msg).<predicate>()` chain
or the one `body('images').custom(...)` rule of the source. -/
inductive FieldRule where
  | check (field : String) (msg : String) (pred : StdPred)
  | imagesCustom
deriving DecidableEq, Repr

/-- A validation error as collected by express-validator: the offending
field and a message. -/
structure FieldError where
  field : String
  msg : String
deriving DecidableEq, Repr

/-- Run one field rule on a body.  A standard rule evaluates its predicate
on the coerced string value and fails with its declared message; the custom
rule runs on the raw value and a thrown error (of either kind) is recorded
as a validation failure carrying the thrown message. -/
def runRule (body : Body) : FieldRule → Option FieldError
  | .check f m p => if evalStd p (evToStr (getField body f)) then none else some ⟨f, m⟩
  | .imagesCustom =>
    match imagesCustomEval (getField body "images") with
    | .returned => none
    | .thrownError m => some ⟨"images", m⟩
    | .thrownTypeError m => some ⟨"images", m⟩

/-- The errors collected by a list of field rules, in declaration order. -/
def rulesErrors (body : Body) : List FieldRule → List FieldError
  | [] => []
  | r :: rest => (runRule body r).toList ++ rulesErrors body rest

/-- The handlers imported from the product controller. -/
inductive Handler where
  | AddProduct
  | LikeProduct
  | AddProductToCart
  | GetProductById
  | GetSellingProducts
  | GetExchangeProducts
  | EditProduct
  | DeleteProduct
deriving DecidableEq, Repr

/-- HTTP methods used by the router. -/
inductive Method where
  | get
  | post
  | put
  | patch
  | delete
deriving DecidableEq, Repr

/-- One stage of a route's middleware pipeline: the `UserAuth` middleware
or one field validator.  Express flattens the nested middleware arrays of
the source, preserving order. -/
inductive Stage where
  | auth
  | validator (rule : FieldRule)
deriving DecidableEq, Repr

/-- A registered route: method, path, ordered middleware pipeline, and the
handler invoked when every stage passes. -/
structure Route where
  method : Method
  path : String
  stages : List Stage
  handler : Handler
deriving DecidableEq, Repr

/-- A request as seen by this layer.  Modelled from the spec: the
`UserAuth` middleware (outside the given sources) accepts or rejects based
on the `x-auth-token` header, so its outcome is carried as a boolean. -/
structure Request where
  authOk : Bool
  body : Body

/-- The outcome of processing a request through a route.  Modelled from the
spec: auth failure produces an unauthorized response before any validator
runs; a non-empty set of validation errors is returned to the caller and
the handler is never invoked; otherwise the handler is invoked once with
the parsed body. -/
inductive Outcome where
  | unauthorized
  | validationError (errors : List FieldError)
  | handled (h : Handler) (body : Body)

/-- Intermediate result of walking the pipeline stages in order. -/
inductive StageResult where
  | unauthorized
  | collected (errs : List FieldError)
deriving DecidableEq, Repr

/-- Walk the pipeline stages in declaration order, accumulating validation
errors.  Modelled from the spec: a failing `UserAuth` short-circuits
immediately, so no later stage runs. -/
def runStages (req : Request) : List Stage → List FieldError → StageResult
  | [], acc => .collected acc
  | Stage.auth :: rest, acc =>
    if req.authOk then runStages req rest acc else .unauthorized
  | Stage.validator r :: rest, acc =>
    runStages req rest (acc ++ (runRule req.body r).toList)

/-- Process a request through a route.  Modelled from the spec: when any
validator failed, the validation-error collaborator rejects the request and
the handler is never invoked; otherwise the handler runs once with the
parsed body. -/
def runPipeline (rt : Route) (req : Request) : Outcome :=
  match runStages req rt.stages [] with
  | .unauthorized => .unauthorized
  | .collected errs =>
    if errs.isEmpty then .handled rt.handler req.body else .validationError errs

/-- The validator list of `ProductRouter.post('/AddProduct')`, transcribed
in source order. -/
def AddProductRules : List FieldRule :=
  [ .check "productName" "Product name is required" .notEmpty,
    .check "price" "Price should be a number" .isNumeric,
    .check "forExchange" "ForExchange should be boolean" .isBoolean,
    .check "description" "Description is required" .notEmpty,
    .check "categoryId" "Category should be a number" .notEmpty,
    .check "cityId" "City should be a number" .notEmpty,
    .check "conditionId" "Condition should be a number" .notEmpty,
    .imagesCustom ]

/-- The validator list of `ProductRouter.put('/EditProduct')`, transcribed
in source order. -/
def EditProductRules : List FieldRule :=
  [ .check "productId" "Product id is required" .notEmpty,
    .check "productName" "Product name is required" .notEmpty,
    .check "price" "Price should be a number" .isNumeric,
    .check "forExchange" "ForExchange should be boolean" .isBoolean,
    .check "description" "Description is required" .notEmpty,
    .check "categoryId" "Category should be a number" .notEmpty,
    .check "cityId" "City should be a number" .notEmpty,
    .check "conditionId" "Condition should be a number" .notEmpty,
    .imagesCustom ]

/-- The single `productId` rule shared by LikeProduct, AddProductToCart and
DeleteProduct. -/
def productIdRule : FieldRule := .check "productId" "Product id is required" .notEmpty

/-- `ProductRouter.post('/AddProduct', [UserAuth, [...]], AddProduct)`. -/
def AddProductRoute : Route :=
  { method := .post, path := "/AddProduct",
    stages := Stage.auth :: AddProductRules.map Stage.validator,
    handler := .AddProduct }

/-- `ProductRouter.patch('/LikeProduct', [UserAuth, [...]], LikeProduct)`. -/
def LikeProductRoute : Route :=
  { method := .patch, path := "/LikeProduct",
    stages := [Stage.auth, Stage.validator productIdRule],
    handler := .LikeProduct }

/-- `ProductRouter.patch('/AddProductToCart', [UserAuth, [...]], AddProductToCart)`. -/
def AddProductToCartRoute : Route :=
  { method := .patch, path := "/AddProductToCart",
    stages := [Stage.auth, Stage.validator productIdRule],
    handler := .AddProductToCart }

/-- `ProductRouter.get('/GetProductById', UserAuth, GetProductById)`. -/
def GetProductByIdRoute : Route :=
  { method := .get, path := "/GetProductById",
    stages := [Stage.auth],
    handler := .GetProductById }

/-- `ProductRouter.get('/GetSellingProducts', UserAuth, GetSellingProducts)`. -/
def GetSellingProductsRoute : Route :=
  { method := .get, path := "/GetSellingProducts",
    stages := [Stage.auth],
    handler := .GetSellingProducts }

/-- `ProductRouter.get('/GetExchangeProducts', UserAuth, GetExchangeProducts)`. -/
def GetExchangeProductsRoute : Route :=
  { method := .get, path := "/GetExchangeProducts",
    stages := [Stage.auth],
    handler := .GetExchangeProducts }

/-- `ProductRouter.put('/EditProduct', [UserAuth, [...]], EditProduct)`. -/
def EditProductRoute : Route :=
  { method := .put, path := "/EditProduct",
    stages := Stage.auth :: EditProductRules.map Stage.validator,
    handler := .EditProduct }

/-- `ProductRouter.delete('/DeleteProduct', [UserAuth, [...]], DeleteProduct)`. -/
def DeleteProductRoute : Route :=
  { method := .delete, path := "/DeleteProduct",
    stages := [Stage.auth, Stage.validator productIdRule],
    handler := .DeleteProduct }

/-- The eight routes of `ProductRouter`, in registration order. -/
def ProductRouter : List Route :=
  [ AddProductRoute, LikeProductRoute, AddProductToCartRoute,
    GetProductByIdRoute, GetSellingProductsRoute, GetExchangeProductsRoute,
    EditProductRoute, DeleteProductRoute ]

/-- The validator list used by the spec's description of EditProduct: the
productId rule prepended to the AddProduct validator list. -/
def EditProductRulesSpec : List FieldRule := productIdRule :: AddProductRules

/-- The concrete request body of the spec's end-to-end example. -/
def SampleAddBody : Body :=
  [ ("productName", Json.str "Bike"), ("price", Json.str "100"),
    ("forExchange", Json.str "false"), ("description", Json.str "Used bike"),
    ("categoryId", Json.str "1"), ("cityId", Json.str "1"),
    ("conditionId", Json.str "1"),
    ("images", Json.arr [Json.str "a.jpg", Json.str "b.jpg", Json.str "c.jpg"]) ]

theorem list_length_le_utf16 (l : List Char) : l.length ≤ (l.map utf16SizeC).sum := by
  induction l with
  | nil => simp
  | cons c t ih =>
    have hc : 1 ≤ utf16SizeC c := by
      unfold utf16SizeC
      split <;> simp
    simp only [List.map_cons, List.sum_cons, List.length_cons]
    omega

theorem length_le_utf16Len (s : String) : s.length ≤ utf16Len s :=
  list_length_le_utf16 s.data

theorem isEmpty_false_of_mem {α : Type _} {e : α} {l : List α} (h : e ∈ l) :
    l.isEmpty = false := by
  cases l with
  | nil => cases h
  | cons a t => rfl

theorem runStages_validators (req : Request) (rules : List FieldRule) :
    ∀ acc, runStages req (rules.map Stage.validator) acc =
      .collected (acc ++ rulesErrors req.body rules) := by
  induction rules with
  | nil => intro acc; simp [runStages, rulesErrors]
  | cons r rest ih =>
    intro acc
    simp [runStages, rulesErrors, ih, List.append_assoc]

theorem runPipeline_validators (rt : Route) (rules : List FieldRule)
    (hst : rt.stages = Stage.auth :: rules.map Stage.validator) (body : Body) :
    runPipeline rt { authOk := true, body := body } =
      if (rulesErrors body rules).isEmpty then .handled rt.handler body
      else .validationError (rulesErrors body rules) := by
  simp [runPipeline, hst, runStages, runStages_validators]

theorem mem_rulesErrors (body : Body) (r : FieldRule) (e : FieldError)
    (hre : runRule body r = some e) :
    ∀ rules : List FieldRule, r ∈ rules → e ∈ rulesErrors body rules := by
  intro rules hr
  induction rules with
  | nil => cases hr
  | cons a rest ih =>
    rcases List.mem_cons.mp hr with h | h
    · subst h; simp [rulesErrors, hre]
    · simp [rulesErrors, ih h]

theorem validationError_of_rule_fails (rt : Route) (rules : List FieldRule)
    (hst : rt.stages = Stage.auth :: rules.map Stage.validator)
    (body : Body) (r : FieldRule) (e : FieldError)
    (hr : r ∈ rules) (he : runRule body r = some e) :
    runPipeline rt { authOk := true, body := body } =
      .validationError (rulesErrors body rules) ∧ e ∈ rulesErrors body rules := by
  have hm := mem_rulesErrors body r e he rules hr
  refine ⟨?_, hm⟩
  rw [runPipeline_validators rt rules hst body, isEmpty_false_of_mem hm]
  simp

theorem runPipeline_unauth (rt : Route) (h : rt.stages.head? = some Stage.auth)
    (body : Body) :
    runPipeline rt { authOk := false, body := body } = .unauthorized := by
  cases rt with
  | mk m p st hd =>
    cases st with
    | nil => simp at h
    | cons s rest =>
      simp [List.head?] at h
      subst h
      simp [runPipeline, runStages]

/-- C1: every registered route of the Product route table (all eight
endpoints) has the UserAuth middleware as the first stage of its pipeline,
every later stage is a field validator, and when authentication fails the
outcome is unauthorized regardless of the body: no validator influences the
result and the handler is never invoked. -/
theorem c1_userAuth_first_and_short_circuits :
    ProductRouter.length = 8 ∧
    ∀ rt ∈ ProductRouter,
      rt.stages.head? = some Stage.auth ∧
      (∀ s ∈ rt.stages.tail, s ≠ Stage.auth) ∧
      ∀ body : Body, runPipeline rt { authOk := false, body := body } = .unauthorized := by
  refine ⟨rfl, ?_⟩
  intro rt hrt
  simp only [ProductRouter, List.mem_cons, List.not_mem_nil, or_false] at hrt
  rcases hrt with rfl | rfl | rfl | rfl | rfl | rfl | rfl | rfl <;>
    exact ⟨rfl, by decide, fun body => by apply runPipeline_unauth; rfl⟩

theorem c1_userAuth_first_and_short_circuits_witness :
    AddProductRoute.stages.head? = some Stage.auth ∧
    runPipeline AddProductRoute { authOk := false, body := [] } = .unauthorized := by
  have h := c1_userAuth_first_and_short_circuits.2 AddProductRoute (by simp [ProductRouter])
  exact ⟨h.1, h.2.2 []⟩

/-- C2: for AddProduct and EditProduct, an authenticated payload whose
images field is an array with fewer than 3 entries is rejected with a
validation error containing the message
"Each product should have at least 3 images", so the handler is not
invoked. -/
theorem c2_images_fewer_than_three_rejected :
    ∀ (body : Body) (xs : List Json),
      getField body "images" = some (Json.arr xs) → xs.length < 3 →
      (∃ es, runPipeline AddProductRoute { authOk := true, body := body } =
          .validationError es ∧ FieldError.mk "images" imagesMsg ∈ es) ∧
      (∃ es, runPipeline EditProductRoute { authOk := true, body := body } =
          .validationError es ∧ FieldError.mk "images" imagesMsg ∈ es) := by
  intro body xs hf hlen
  have hrr : runRule body .imagesCustom = some ⟨"images", imagesMsg⟩ := by
    simp [runRule, imagesCustomEval, hf, hlen]
  constructor
  · have h := validationError_of_rule_fails AddProductRoute AddProductRules rfl body
      .imagesCustom ⟨"images", imagesMsg⟩ (by decide) hrr
    exact ⟨rulesErrors body AddProductRules, h.1, h.2⟩
  · have h := validationError_of_rule_fails EditProductRoute EditProductRules rfl body
      .imagesCustom ⟨"images", imagesMsg⟩ (by decide) hrr
    exact ⟨rulesErrors body EditProductRules, h.1, h.2⟩

theorem c2_images_fewer_than_three_rejected_witness :
    (∃ es, runPipeline AddProductRoute
        { authOk := true, body := [("images", Json.arr [])] } =
        .validationError es ∧ FieldError.mk "images" imagesMsg ∈ es) ∧
    (∃ es, runPipeline EditProductRoute
        { authOk := true, body := [("images", Json.arr [])] } =
        .validationError es ∧ FieldError.mk "images" imagesMsg ∈ es) :=
  c2_images_fewer_than_three_rejected [("images", Json.arr [])] [] rfl (by decide)

/-- C3 counterexample: a well-formed JSON body without an images field makes
the images custom predicate read `.length` of `undefined`, which throws a
TypeError — so the claim that every declared field rule's predicate is
evaluable without throwing fails on the code. -/
theorem c3_images_predicate_throws_counterexample :
    imagesCustomEval (getField [] "images") =
      CustomOutcome.thrownTypeError
        "Cannot read properties of undefined (reading 'length')" ∧
    customThrows (imagesCustomEval (getField [] "images")) = true := by decide

/-- C3 (amended): the standard field rules evaluate total string tests, but
the images custom predicate can throw: it throws exactly when the images
field is absent or null (a TypeError from reading `.length`), or when the
raw value is a string of fewer than 3 UTF-16 code units or an array of
fewer than 3 elements, or an object whose `length` member compares below 3
under JS numeric coercion (the declared Error). -/
theorem c3_images_predicate_throw_characterization :
    ∀ v : Option Json, customThrows (imagesCustomEval v) = true ↔
      (v = none ∨ v = some Json.null ∨
       (∃ s, v = some (Json.str s) ∧ utf16Len s < 3) ∨
       (∃ xs, v = some (Json.arr xs) ∧ xs.length < 3) ∨
       (∃ fs w, v = some (Json.obj fs) ∧ getField fs "length" = some w ∧
         jsLengthPropLt3 w = true)) := by
  intro v
  match v with
  | none => simp [imagesCustomEval, customThrows]
  | some Json.null => simp [imagesCustomEval, customThrows]
  | some (Json.bool b) => simp [imagesCustomEval, customThrows]
  | some (Json.num n) => simp [imagesCustomEval, customThrows]
  | some (Json.str s) =>
    by_cases h : utf16Len s < 3 <;> simp [imagesCustomEval, customThrows, h]
  | some (Json.arr xs) =>
    by_cases h : xs.length < 3 <;> simp [imagesCustomEval, customThrows, h]
  | some (Json.obj fs) =>
    cases hg : getField fs "length" with
    | none => simp [imagesCustomEval, customThrows, hg]
    | some w =>
      by_cases h : jsLengthPropLt3 w = true <;>
        simp [imagesCustomEval, customThrows, hg, h]

theorem c3_images_predicate_throw_characterization_witness :
    customThrows (imagesCustomEval (some (Json.str "ab"))) = true :=
  (c3_images_predicate_throw_characterization (some (Json.str "ab"))).mpr
    (Or.inr (Or.inr (Or.inl ⟨"ab", rfl, by decide⟩)))

/-- C4: the AddProduct route is a POST at "/AddProduct" and declares
exactly these validation rules in this order: productName non-empty, price
numeric, forExchange boolean, description non-empty, categoryId non-empty,
cityId non-empty, conditionId non-empty, images custom (length at least 3);
consequently an authenticated body with price "abc" is rejected with an
error on price, and one with forExchange "notabool" with an error on
forExchange. -/
theorem c4_addProduct_declared_rules :
    AddProductRoute.method = Method.post ∧
    AddProductRoute.path = "/AddProduct" ∧
    AddProductRoute.stages = Stage.auth :: List.map Stage.validator
      [ FieldRule.check "productName" "Product name is required" StdPred.notEmpty,
        FieldRule.check "price" "Price should be a number" StdPred.isNumeric,
        FieldRule.check "forExchange" "ForExchange should be boolean" StdPred.isBoolean,
        FieldRule.check "description" "Description is required" StdPred.notEmpty,
        FieldRule.check "categoryId" "Category should be a number" StdPred.notEmpty,
        FieldRule.check "cityId" "City should be a number" StdPred.notEmpty,
        FieldRule.check "conditionId" "Condition should be a number" StdPred.notEmpty,
        FieldRule.imagesCustom ] ∧
    (∀ body : Body, getField body "price" = some (Json.str "abc") →
      ∃ es, runPipeline AddProductRoute { authOk := true, body := body } =
        .validationError es ∧ FieldError.mk "price" "Price should be a number" ∈ es) ∧
    (∀ body : Body, getField body "forExchange" = some (Json.str "notabool") →
      ∃ es, runPipeline AddProductRoute { authOk := true, body := body } =
        .validationError es ∧
        FieldError.mk "forExchange" "ForExchange should be boolean" ∈ es) := by
  refine ⟨rfl, rfl, rfl, ?_, ?_⟩
  · intro body hf
    have he : runRule body
        (FieldRule.check "price" "Price should be a number" StdPred.isNumeric) =
        some ⟨"price", "Price should be a number"⟩ := by
      simp only [runRule, hf]
      decide
    have h := validationError_of_rule_fails AddProductRoute AddProductRules rfl body
      _ _ (by decide) he
    exact ⟨rulesErrors body AddProductRules, h.1, h.2⟩
  · intro body hf
    have he : runRule body
        (FieldRule.check "forExchange" "ForExchange should be boolean" StdPred.isBoolean) =
        some ⟨"forExchange", "ForExchange should be boolean"⟩ := by
      simp only [runRule, hf]
      decide
    have h := validationError_of_rule_fails AddProductRoute AddProductRules rfl body
      _ _ (by decide) he
    exact ⟨rulesErrors body AddProductRules, h.1, h.2⟩

theorem c4_addProduct_declared_rules_witness :
    (∃ es, runPipeline AddProductRoute
        { authOk := true, body := [("price", Json.str "abc")] } =
        .validationError es ∧ FieldError.mk "price" "Price should be a number" ∈ es) ∧
    (∃ es, runPipeline AddProductRoute
        { authOk := true, body := [("forExchange", Json.str "notabool")] } =
        .validationError es ∧
        FieldError.mk "forExchange" "ForExchange should be boolean" ∈ es) :=
  ⟨c4_addProduct_declared_rules.2.2.2.1 [("price", Json.str "abc")] rfl,
   c4_addProduct_declared_rules.2.2.2.2 [("forExchange", Json.str "notabool")] rfl⟩

/-- C5: the EditProduct route is a PUT at "/EditProduct" whose validator
list equals the AddProduct validator list with the productId non-empty rule
prepended; hence on any request body each EditProduct rule other than
productId behaves exactly as the corresponding AddProduct rule. -/
theorem c5_edit_refines_add :
    EditProductRoute.method = Method.put ∧
    EditProductRoute.path = "/EditProduct" ∧
    EditProductRoute.stages = Stage.auth :: EditProductRules.map Stage.validator ∧
    EditProductRules = EditProductRulesSpec ∧
    ∀ body : Body,
      (EditProductRules.drop 1).map (runRule body) =
        AddProductRules.map (runRule body) := by
  exact ⟨rfl, rfl, rfl, by decide, fun body => rfl⟩

theorem c5_edit_refines_add_witness :
    (EditProductRules.drop 1).map (runRule []) = AddProductRules.map (runRule []) :=
  c5_edit_refines_add.2.2.2.2 []

/-- C6: LikeProduct (PATCH "/LikeProduct"), AddProductToCart (PATCH
"/AddProductToCart") and DeleteProduct (DELETE "/DeleteProduct") each
declare productId non-empty as their only validation rule, and an
authenticated request whose productId is missing or the empty string is
rejected with exactly the validation error "Product id is required", so
the handler is not invoked. -/
theorem c6_productId_required :
    LikeProductRoute.method = Method.patch ∧
    LikeProductRoute.path = "/LikeProduct" ∧
    LikeProductRoute.stages = [Stage.auth, Stage.validator
      (FieldRule.check "productId" "Product id is required" StdPred.notEmpty)] ∧
    AddProductToCartRoute.method = Method.patch ∧
    AddProductToCartRoute.path = "/AddProductToCart" ∧
    AddProductToCartRoute.stages = [Stage.auth, Stage.validator
      (FieldRule.check "productId" "Product id is required" StdPred.notEmpty)] ∧
    DeleteProductRoute.method = Method.delete ∧
    DeleteProductRoute.path = "/DeleteProduct" ∧
    DeleteProductRoute.stages = [Stage.auth, Stage.validator
      (FieldRule.check "productId" "Product id is required" StdPred.notEmpty)] ∧
    ∀ rt ∈ [LikeProductRoute, AddProductToCartRoute, DeleteProductRoute],
      ∀ body : Body,
        (getField body "productId" = none ∨
          getField body "productId" = some (Json.str "")) →
        runPipeline rt { authOk := true, body := body } =
          .validationError [⟨"productId", "Product id is required"⟩] := by
  refine ⟨rfl, rfl, rfl, rfl, rfl, rfl, rfl, rfl, rfl, ?_⟩
  intro rt hrt body hpid
  have he : runRule body productIdRule = some ⟨"productId", "Product id is required"⟩ := by
    rcases hpid with h | h <;>
      simp [runRule, productIdRule, evalStd, h, evToStr, evToStrDeep]
  simp only [List.mem_cons, List.not_mem_nil, or_false] at hrt
  rcases hrt with rfl | rfl | rfl
  · rw [runPipeline_validators LikeProductRoute [productIdRule] rfl body]
    simp [rulesErrors, he]
  · rw [runPipeline_validators AddProductToCartRoute [productIdRule] rfl body]
    simp [rulesErrors, he]
  · rw [runPipeline_validators DeleteProductRoute [productIdRule] rfl body]
    simp [rulesErrors, he]

theorem c6_productId_required_witness :
    runPipeline LikeProductRoute { authOk := true, body := [] } =
      Outcome.validationError [⟨"productId", "Product id is required"⟩] :=
  c6_productId_required.2.2.2.2.2.2.2.2.2 LikeProductRoute (by simp) [] (Or.inl rfl)

/-- C7: a POST to /Api/Product/AddProduct with a valid auth token and the
spec's example body (productName "Bike", price "100", forExchange "false",
description "Used bike", categoryId/cityId/conditionId "1", images a 3-item
array) passes every declared validator and invokes the AddProduct handler
once with the parsed body. -/
theorem c7_addProduct_end_to_end :
    runPipeline AddProductRoute { authOk := true, body := SampleAddBody } =
      Outcome.handled Handler.AddProduct SampleAddBody := rfl

/-- C8: the GET routes GetProductById, GetSellingProducts and
GetExchangeProducts declare no validation rules — each pipeline is exactly
the authentication middleware followed by the handler — and
GetSellingProducts and GetExchangeProducts have identical pipeline
structure and method, differing only in their handler. -/
theorem c8_get_routes_no_validators :
    GetProductByIdRoute.method = Method.get ∧
    GetProductByIdRoute.path = "/GetProductById" ∧
    GetProductByIdRoute.stages = [Stage.auth] ∧
    GetProductByIdRoute.handler = Handler.GetProductById ∧
    GetSellingProductsRoute.method = Method.get ∧
    GetSellingProductsRoute.path = "/GetSellingProducts" ∧
    GetSellingProductsRoute.stages = [Stage.auth] ∧
    GetSellingProductsRoute.handler = Handler.GetSellingProducts ∧
    GetExchangeProductsRoute.method = Method.get ∧
    GetExchangeProductsRoute.path = "/GetExchangeProducts" ∧
    GetExchangeProductsRoute.stages = [Stage.auth] ∧
    GetExchangeProductsRoute.handler = Handler.GetExchangeProducts ∧
    GetSellingProductsRoute.stages = GetExchangeProductsRoute.stages ∧
    GetSellingProductsRoute.method = GetExchangeProductsRoute.method ∧
    GetSellingProductsRoute.handler ≠ GetExchangeProductsRoute.handler := by
  decide

/-- C9: the categoryId, cityId and conditionId rules of AddProduct and
EditProduct are non-emptiness checks despite their "should be a number"
messages: any non-empty string value of such a field, numeric or not,
passes the rule. -/
theorem c9_id_rules_check_only_nonempty :
    FieldRule.check "categoryId" "Category should be a number" StdPred.notEmpty
      ∈ AddProductRules ∧
    FieldRule.check "cityId" "City should be a number" StdPred.notEmpty
      ∈ AddProductRules ∧
    FieldRule.check "conditionId" "Condition should be a number" StdPred.notEmpty
      ∈ AddProductRules ∧
    FieldRule.check "categoryId" "Category should be a number" StdPred.notEmpty
      ∈ EditProductRules ∧
    FieldRule.check "cityId" "City should be a number" StdPred.notEmpty
      ∈ EditProductRules ∧
    FieldRule.check "conditionId" "Condition should be a number" StdPred.notEmpty
      ∈ EditProductRules ∧
    ∀ (body : Body) (f m s : String),
      getField body f = some (Json.str s) → s ≠ "" →
      runRule body (FieldRule.check f m StdPred.notEmpty) = none := by
  refine ⟨by decide, by decide, by decide, by decide, by decide, by decide, ?_⟩
  intro body f m s hf hs
  have hbeq : (s == "") = false := beq_eq_false_iff_ne.mpr hs
  simp [runRule, evalStd, hf, evToStr, evToStrDeep, hbeq]

theorem c9_id_rules_check_only_nonempty_witness :
    runRule [("categoryId", Json.str "abc")]
      (FieldRule.check "categoryId" "Category should be a number" StdPred.notEmpty) =
      none :=
  c9_id_rules_check_only_nonempty.2.2.2.2.2.2 [("categoryId", Json.str "abc")]
    "categoryId" "Category should be a number" "abc" rfl (by decide)

/-- C10: the images rule only compares the raw value's length with 3 and
never tests that the value is an array: any string of at least 3
characters, any array of at least 3 elements, and any object whose length
member is a number at least 3 all pass, and in particular a body whose
images field is the plain string "abc" passes the whole images rule. -/
theorem c10_images_checks_only_length :
    (∀ s : String, 3 ≤ s.length →
      imagesCustomEval (some (Json.str s)) = CustomOutcome.returned) ∧
    (∀ xs : List Json, 3 ≤ xs.length →
      imagesCustomEval (some (Json.arr xs)) = CustomOutcome.returned) ∧
    (∀ (fs : List (String × Json)) (n : Int),
      getField fs "length" = some (Json.num n) → 3 ≤ n →
      imagesCustomEval (some (Json.obj fs)) = CustomOutcome.returned) ∧
    ∀ (body : Body) (s : String),
      getField body "images" = some (Json.str s) → 3 ≤ s.length →
      runRule body FieldRule.imagesCustom = none := by
  refine ⟨?_, ?_, ?_, ?_⟩
  · intro s h
    simp [imagesCustomEval, Nat.not_lt.mpr (h.trans (length_le_utf16Len s))]
  · intro xs h
    simp [imagesCustomEval, Nat.not_lt.mpr h]
  · intro fs n hg h
    simp [imagesCustomEval, hg, jsLengthPropLt3, Int.not_lt.mpr h]
  · intro body s hf h
    simp [runRule, imagesCustomEval, hf, Nat.not_lt.mpr (h.trans (length_le_utf16Len s))]

theorem c10_images_checks_only_length_witness :
    imagesCustomEval (some (Json.str "abc")) = CustomOutcome.returned ∧
    runRule [("images", Json.str "abc")] FieldRule.imagesCustom = none :=
  ⟨c10_images_checks_only_length.1 "abc" (by decide),
   c10_images_checks_only_length.2.2.2 [("images", Json.str "abc")] "abc" rfl (by decide)⟩
